import Mathlib

/-!
Verification development for the Particle Argon patient-monitoring firmware
(`src/Particle_Argon_Patient_Monitoring.cpp`).

The firmware is a single cooperative control loop.  We embed each component
the claims are about as a pure Lean function over explicit state:

* the publish-rate gate `canPublish` / `dispatchTime` / `runScheduler`
  (source `canPublish()` together with the
  `if(!canPublish()) delay(PUBLISH_INTERVAL_MS - (millis() - lastPublish))`
  pattern repeated in every publish path);
* the presence state machine `checkDeviceStateChanged`;
* the fall detector `checkFallDetection` (here `fallStep` on `FallState`,
  with `fallRun` folding it over timed samples and `validTrace` expressing
  the timing discipline of the loop, in particular the blocking
  `delay(1000)` after a confirmed fall);
* the orientation classifier `checkOrientation` / `classifyOrientation`;
* the department part of `scanResultCallback`;
* the control surface `setStatusFunction` with the Arduino-`String`
  `trim()` / `toLowerCase()` normalization.

Times are in milliseconds (microseconds for the fall detector, as in the
source, which uses `micros()` there).  `millis()`/`micros()` are `uint32_t`;
within a session (tens of days / about an hour respectively) they are
monotone and the unsigned differences computed by the source equal the
mathematical differences, so timestamps are embedded as `Nat`.
-/

/-! ### Telemetry scheduler (rate gate) -/

/-- Source `canPublish()`: `millis() - lastPublish >= PUBLISH_INTERVAL_MS`
with `PUBLISH_INTERVAL_MS = 1100`. -/
def canPublish (now lastPublish : Nat) : Bool :=
  1100 ≤ now - lastPublish

/-- Every publish path in the source runs
`if(!canPublish()) { delay(PUBLISH_INTERVAL_MS - (millis() - lastPublish)); }`
and then publishes, setting `lastPublish = millis()`.  The publish therefore
goes out at `now` when the budget is free and at `lastPublish + 1100`
otherwise (after a `delay` of `1100 - (now - lastPublish)`). -/
def dispatchTime (lastPublish now : Nat) : Nat :=
  if canPublish now lastPublish then now else lastPublish + 1100

/-- Folds the publish gate over a list of emission-request times.  The
control loop is single-threaded, so a request that arrives while the
previous publish is still blocking in `delay` is actually issued when that
wait ends: the effective call time is `max t lastPublish`. -/
def runScheduler (lastPublish : Nat) : List Nat → List Nat
  | [] => []
  | t :: ts =>
    let d := dispatchTime lastPublish (max t lastPublish)
    d :: runScheduler d ts

/-! ### Presence state machine -/

/-- Source enum `DevicePresenceType`. -/
inductive DevicePresenceType where
  | presenceUnknown
  | here
  | notHere
deriving DecidableEq

/-- Source `checkDeviceStateChanged(DevicePresenceType *presence)`, with the
globals `millis()` and `lastSeen` made explicit.  Branch order is the
source's: the `millis() > lastSeen + DEVICE_NOT_HERE_MS` test comes first,
the `lastSeen == 0` startup test second (`DEVICE_NOT_HERE_MS = 30000`).
Returns the new label and the changed flag. -/
def checkDeviceStateChanged (now lastSeen : Nat) (presence : DevicePresenceType) :
    DevicePresenceType × Bool :=
  if lastSeen + 30000 < now then
    if presence ≠ DevicePresenceType.notHere then (DevicePresenceType.notHere, true)
    else (presence, false)
  else if lastSeen = 0 then
    if presence ≠ DevicePresenceType.presenceUnknown then
      (DevicePresenceType.presenceUnknown, true)
    else (presence, false)
  else
    if presence ≠ DevicePresenceType.here then (DevicePresenceType.here, true)
    else (presence, false)

/-! ### Orientation classifier -/

/-- The decision core of source `checkOrientation()`:
`if(az_g > STANDING_Z_MIN) standing; else if(fabs(az_g) < LYING_Z_MAX)
lying down; else keep previous`, with `STANDING_Z_MIN = 0.7` and
`LYING_Z_MAX = 0.4`.  The float arithmetic is embedded in `ℚ`. -/
def classifyOrientation (az_g : ℚ) (prev : String) : String :=
  if 7/10 < az_g then "standing"
  else if |az_g| < 2/5 then "lying down"
  else prev

/-- The orientation globals of the source: `currentOrientation` and
`lastOrientation`. -/
structure OrientState where
  currentOrientation : String
  lastOrientation : String
deriving DecidableEq

/-- Source `checkOrientation()`: converts the raw Z reading with
`az / 16384.0`, classifies, and raises the change event (the log line)
exactly when the new label differs from `lastOrientation`, updating
`lastOrientation` in that case. -/
def checkOrientation (s : OrientState) (az : Int) : OrientState × Bool :=
  let cur := classifyOrientation ((az : ℚ) / 16384) s.currentOrientation
  if cur ≠ s.lastOrientation then
    ({ currentOrientation := cur, lastOrientation := cur }, true)
  else
    ({ currentOrientation := cur, lastOrientation := s.lastOrientation }, false)

/-! ### Claim C1 (scheduler spacing) -/

/-- C1, counterexample.  The claim's example says emission requests at
t = 0, 100, 2000 ms dispatch at 0, 1100, 2000 ms.  On the code, with
`lastPublish` initialized to 0, they dispatch at 1100, 2200, 3300 ms:
each wait is measured from the updated last-publish timestamp, so the
claimed dispatch at 2000 (only 900 ms after the previous one) is
impossible. -/
theorem sched_example_cex :
    runScheduler 0 [0, 100, 2000] = [1100, 2200, 3300] ∧
    runScheduler 0 [0, 100, 2000] ≠ [0, 1100, 2000] := by
  constructor <;> decide

/-- C1 (amended): the spacing invariant itself holds — starting from any
inherited last-publish timestamp, the dispatch times produced by the gate
are each at least 1100 ms after the previous one (and the first is at least
1100 ms after the inherited timestamp). -/
theorem sched_min_spacing (lastPublish : Nat) (ts : List Nat) :
    List.Chain (fun a b => a + 1100 ≤ b) lastPublish (runScheduler lastPublish ts) := by
  induction ts generalizing lastPublish with
  | nil => exact List.Chain.nil
  | cons t ts ih =>
    simp only [runScheduler]
    refine List.Chain.cons ?_ (ih _)
    have hmax : lastPublish ≤ max t lastPublish := Nat.le_max_right t lastPublish
    simp only [dispatchTime, canPublish]
    split
    · next h => simp only [decide_eq_true_eq] at h; omega
    · omega

/-! ### Claims C2 and C8 (presence) -/

/-- C2, counterexample.  Before any contact (`lastSeen = 0`), the label does
not stay Unknown for every value of the current time: at `now = 30001` the
first branch (`millis() > lastSeen + 30000`) fires and the label becomes
NotHere. -/
theorem presence_unknown_cex :
    checkDeviceStateChanged 30001 0 DevicePresenceType.presenceUnknown =
      (DevicePresenceType.notHere, true) := by
  decide

/-- C2 (amended): with no contact recorded (`lastSeen = 0`) the label
evaluates to Unknown only while `now ≤ 30000`; once the uptime exceeds
`DEVICE_NOT_HERE_MS` the poll yields NotHere, so presence does not remain
Unknown indefinitely. -/
theorem presence_before_contact (now : Nat) (p : DevicePresenceType) :
    (now ≤ 30000 → (checkDeviceStateChanged now 0 p).1 = DevicePresenceType.presenceUnknown) ∧
    (30000 < now → (checkDeviceStateChanged now 0 p).1 = DevicePresenceType.notHere) := by
  constructor <;> intro h
  · have hn : ¬ (0 + 30000 < now) := by omega
    cases p <;> simp [checkDeviceStateChanged, hn]
  · have hy : (0 + 30000 < now) := by omega
    cases p <;> simp [checkDeviceStateChanged, hy]

/-- Witness for `presence_before_contact` at concrete inputs. -/
theorem presence_before_contact_witness :
    (checkDeviceStateChanged 5 0 DevicePresenceType.here).1 =
      DevicePresenceType.presenceUnknown ∧
    (checkDeviceStateChanged 40000 0 DevicePresenceType.here).1 =
      DevicePresenceType.notHere :=
  ⟨(presence_before_contact 5 DevicePresenceType.here).1 (by decide),
   (presence_before_contact 40000 DevicePresenceType.here).2 (by decide)⟩

/-- C8, counterexample.  With a recorded contact at `lastSeen = 5` and
`now = 30005` the elapsed silence is exactly 30000 ms, yet the code leaves
the label Here (its comparison `millis() > lastSeen + 30000` is strict), so
the Here→NotHere transition does not occur at exactly `NOT_HERE_TIMEOUT`
as the claim states. -/
theorem presence_timeout_cex :
    checkDeviceStateChanged 30005 5 DevicePresenceType.here =
      (DevicePresenceType.here, false) ∧
    30000 ≤ 30005 - 5 := by
  constructor <;> decide

/-- C8 (amended): for a recorded contact (`lastSeen ≠ 0`) the poll assigns
NotHere exactly when `now - lastSeen > 30000` (strictly more than
`NOT_HERE_TIMEOUT` of silence) and Here exactly when `now - lastSeen ≤
30000`; the changed flag is true precisely on an actual label transition. -/
theorem presence_timeout (now lastSeen : Nat) (p : DevicePresenceType)
    (h : lastSeen ≠ 0) :
    ((checkDeviceStateChanged now lastSeen p).1 = DevicePresenceType.notHere ↔
      30000 < now - lastSeen) ∧
    ((checkDeviceStateChanged now lastSeen p).1 = DevicePresenceType.here ↔
      now - lastSeen ≤ 30000) ∧
    ((checkDeviceStateChanged now lastSeen p).2 = true ↔
      (checkDeviceStateChanged now lastSeen p).1 ≠ p) := by
  by_cases hlt : lastSeen + 30000 < now
  · cases p <;> simp [checkDeviceStateChanged, hlt, h] <;> omega
  · cases p <;> simp [checkDeviceStateChanged, hlt, h] <;> omega

/-- Witness for `presence_timeout` at concrete inputs. -/
theorem presence_timeout_witness :
    ((checkDeviceStateChanged 40000 1 DevicePresenceType.here).1 =
        DevicePresenceType.notHere ↔ 30000 < 40000 - 1) ∧
    ((checkDeviceStateChanged 40000 1 DevicePresenceType.here).1 =
        DevicePresenceType.here ↔ 40000 - 1 ≤ 30000) ∧
    ((checkDeviceStateChanged 40000 1 DevicePresenceType.here).2 = true ↔
      (checkDeviceStateChanged 40000 1 DevicePresenceType.here).1 ≠
        DevicePresenceType.here) :=
  presence_timeout 40000 1 DevicePresenceType.here (by decide)

/-! ### Claims C6 and C7 (orientation) -/

/-- C6: inside the hysteresis band (reading not greater than 0.7 g and with
absolute value not less than 0.4 g) the orientation label is left unchanged,
and the label-change event fires exactly when the newly classified label
differs from the previously sampled one. -/
theorem orientation_deadzone (s : OrientState) (az : Int)
    (h1 : (az : ℚ) / 16384 ≤ 7/10) (h2 : 2/5 ≤ |(az : ℚ) / 16384|) :
    (checkOrientation s az).1.currentOrientation = s.currentOrientation ∧
    ((checkOrientation s az).2 = true ↔
      classifyOrientation ((az : ℚ) / 16384) s.currentOrientation ≠ s.lastOrientation) := by
  have hcl : classifyOrientation ((az : ℚ) / 16384) s.currentOrientation =
      s.currentOrientation := by
    unfold classifyOrientation
    rw [if_neg (not_lt.mpr h1), if_neg (not_lt.mpr h2)]
  unfold checkOrientation
  simp only [hcl]
  split <;> simp_all

/-- Witness for `orientation_deadzone`: `az = 8192` gives `az_g = 1/2`,
inside the band. -/
theorem orientation_deadzone_witness :
    (checkOrientation ⟨"standing", "standing"⟩ 8192).1.currentOrientation =
      "standing" :=
  (orientation_deadzone ⟨"standing", "standing"⟩ 8192 (by norm_num) (by
    have h : ((8192 : Int) : ℚ) / 16384 = 1/2 := by norm_num
    rw [h, abs_of_nonneg (by norm_num : (0:ℚ) ≤ 1/2)]
    norm_num)).1

/-- The retain branch of `classifyOrientation`. -/
theorem classify_keep {az_g : ℚ} (h1 : ¬ 7/10 < az_g) (h2 : ¬ |az_g| < 2/5)
    (prev : String) : classifyOrientation az_g prev = prev := by
  unfold classifyOrientation
  rw [if_neg h1, if_neg h2]

/-- C7, counterexample.  A vertical reading of exactly 0.7 g does not
trigger Standing: the source comparator `az_g > STANDING_Z_MIN` is strict,
so at exactly 0.7 the classifier retains the previous label. -/
theorem orientation_boundary_cex :
    classifyOrientation (7/10) "lying down" = "lying down" ∧
    classifyOrientation (7/10) "lying down" ≠ "standing" := by
  have h : classifyOrientation (7/10) "lying down" = "lying down" :=
    classify_keep (lt_irrefl _)
      (by rw [abs_of_nonneg (by norm_num : (0:ℚ) ≤ 7/10)]; norm_num) _
  exact ⟨h, by rw [h]; decide⟩

/-- C7 (amended): both band boundaries retain the previous label — exactly
0.7 g does not trigger Standing (strict `>`), and absolute value exactly
0.4 g does not trigger LyingDown (strict `<`). -/
theorem orientation_boundary (prev : String) (az_g : ℚ)
    (h : az_g = 7/10 ∨ |az_g| = 2/5) :
    classifyOrientation az_g prev = prev := by
  rcases h with h | h
  · subst h
    exact classify_keep (lt_irrefl _)
      (by rw [abs_of_nonneg (by norm_num : (0:ℚ) ≤ 7/10)]; norm_num) prev
  · have h2 : ¬ |az_g| < 2/5 := by rw [h]; exact lt_irrefl _
    have h1 : ¬ 7/10 < az_g := by
      rcases (abs_eq (by norm_num : (0:ℚ) ≤ 2/5)).mp h with h' | h' <;>
        subst h' <;> norm_num
    exact classify_keep h1 h2 prev

/-- Witness for `orientation_boundary` at the lower boundary. -/
theorem orientation_boundary_witness :
    classifyOrientation (2/5) "standing" = "standing" :=
  orientation_boundary "standing" (2/5) (Or.inr (abs_of_nonneg (by norm_num)))

/-! ### Fall detector -/

/-- A raw accelerometer sample `(ax, ay, az)` in register units
(signed 16-bit readings, `16384 LSB/g`). -/
abbrev Accel := Int × Int × Int

/-- The threshold test of `checkFallDetection()`:
`calculateTotalAcceleration(ax, ay, az) < FALL_THRESHOLD`, where the
magnitude is `sqrt((ax/16384)² + (ay/16384)² + (az/16384)²)` and
`FALL_THRESHOLD = 0.5`.  For a nonnegative radicand `x`,
`sqrt x < 0.5 ↔ x < 0.25`, i.e. `ax² + ay² + az² < 0.25 · 16384² =
67108864`; this exact integer form embeds the float comparison. -/
def accelBelowThreshold (a : Accel) : Bool :=
  a.1 * a.1 + a.2.1 * a.2.1 + a.2.2 * a.2.2 < 67108864

/-- The fall-detector globals `isFalling` and `fallStartTime` (µs). -/
structure FallState where
  isFalling : Bool
  fallStartTime : Nat
deriving DecidableEq

/-- Boot values of the fall-detector globals. -/
def initFallState : FallState := { isFalling := false, fallStartTime := 0 }

/-- One call of `checkFallDetection()` at time `now` (µs, the source's
`micros()`) on sample `a`.  Returns the updated state and whether a
confirmed fall was published (`FALL_DURATION_US = 300000`).  On
confirmation the source sets `isFalling = false` (the start timestamp is
left untouched) and then blocks in `delay(1000)`. -/
def fallStep (s : FallState) (now : Nat) (a : Accel) : FallState × Bool :=
  if accelBelowThreshold a then
    if s.isFalling = false then
      ({ isFalling := true, fallStartTime := now }, false)
    else if 300000 ≤ now - s.fallStartTime then
      ({ isFalling := false, fallStartTime := s.fallStartTime }, true)
    else (s, false)
  else
    ({ isFalling := false, fallStartTime := s.fallStartTime }, false)

/-- Folds `fallStep` over a list of timed samples, returning the final
state and the times of confirmed-fall emissions. -/
def fallRun : FallState → List (Nat × Accel) → FallState × List Nat
  | s, [] => (s, [])
  | s, (t, a) :: rest =>
    let r := fallStep s t a
    let rr := fallRun r.1 rest
    (rr.1, if r.2 then t :: rr.2 else rr.2)

/-- Timing discipline between one loop iteration and the next: sample
times strictly increase, and after a confirming call the next sample comes
at least 1000000 µs later — the source blocks in `delay(1000)` right after
publishing the alert, so no sample is processed inside that window. -/
def gapOk (t : Nat) (emitted : Bool) : List (Nat × Accel) → Bool
  | [] => true
  | (t', _) :: _ => decide (t < t') && (!emitted || decide (t + 1000000 ≤ t'))

/-- A sample trace consistent with the control loop's timing. -/
def validTrace : FallState → List (Nat × Accel) → Bool
  | _, [] => true
  | s, (t, a) :: rest =>
    gapOk t (fallStep s t a).2 rest && validTrace (fallStep s t a).1 rest

/-- First sample time of a trace (0 for the empty trace). -/
def firstTime : List (Nat × Accel) → Nat
  | [] => 0
  | (t, _) :: _ => t

theorem fallRun_cons_emit {s : FallState} {t : Nat} {a : Accel}
    {rest : List (Nat × Accel)} {s' : FallState}
    (h : fallStep s t a = (s', true)) :
    fallRun s ((t, a) :: rest) =
      ((fallRun s' rest).1, t :: (fallRun s' rest).2) := by
  simp [fallRun, h]

theorem fallRun_cons_skip {s : FallState} {t : Nat} {a : Accel}
    {rest : List (Nat × Accel)} {s' : FallState}
    (h : fallStep s t a = (s', false)) :
    fallRun s ((t, a) :: rest) = fallRun s' rest := by
  simp [fallRun, h]

theorem gapOk_cons {t : Nat} {e : Bool} {t' : Nat} {a' : Accel}
    {tl : List (Nat × Accel)} :
    gapOk t e ((t', a') :: tl) = true ↔
      (t < t' ∧ (e = true → t + 1000000 ≤ t')) := by
  cases e <;> simp [gapOk]

theorem validTrace_tail {s : FallState} {t : Nat} {a : Accel}
    {rest : List (Nat × Accel)} (h : validTrace s ((t, a) :: rest) = true) :
    validTrace (fallStep s t a).1 rest = true := by
  simp only [validTrace, Bool.and_eq_true] at h
  exact h.2

theorem validTrace_gapOk {s : FallState} {t : Nat} {a : Accel}
    {rest : List (Nat × Accel)} (h : validTrace s ((t, a) :: rest) = true) :
    gapOk t (fallStep s t a).2 rest = true := by
  simp only [validTrace, Bool.and_eq_true] at h
  exact h.1

theorem validTrace_emit_gap {s : FallState} {t : Nat} {a : Accel} {t2 : Nat}
    {a2 : Accel} {tl2 : List (Nat × Accel)}
    (h : validTrace s ((t, a) :: (t2, a2) :: tl2) = true)
    (he : (fallStep s t a).2 = true) : t + 1000000 ≤ t2 :=
  (gapOk_cons.mp (validTrace_gapOk h)).2 he

theorem validTrace_head_lt :
    ∀ (rest : List (Nat × Accel)) (s : FallState) (t : Nat) (a : Accel),
      validTrace s ((t, a) :: rest) = true → ∀ p ∈ rest, t < p.1 := by
  intro rest
  induction rest with
  | nil => intro s t a _ p hp; simp at hp
  | cons hd tl ih =>
    intro s t a h p hp
    obtain ⟨t', a'⟩ := hd
    have h1 : t < t' := (gapOk_cons.mp (validTrace_gapOk h)).1
    rcases List.mem_cons.mp hp with heq | htl
    · subst heq; exact h1
    · exact lt_trans h1 (ih (fallStep s t a).1 t' a' (validTrace_tail h) p htl)

/-- Main invariant of the fall detector over a timing-valid trace: every
confirmation comes at least `FALL_DURATION_US` after the arming time, and
consecutive confirmations are at least `1000000 + 300000` µs apart (the
blocking debounce plus a fresh below-threshold dwell). -/
theorem fallRun_bound_chain :
    ∀ (l : List (Nat × Accel)) (s : FallState),
      validTrace s l = true →
      (s.isFalling = true → ∀ p ∈ l, s.fallStartTime ≤ p.1) →
      (s.isFalling = true → ∀ c ∈ (fallRun s l).2, s.fallStartTime + 300000 ≤ c) ∧
      (s.isFalling = false → ∀ c ∈ (fallRun s l).2, firstTime l + 300000 ≤ c) ∧
      List.Chain' (fun c₁ c₂ => c₁ + 1300000 ≤ c₂) (fallRun s l).2 := by
  intro l
  induction l with
  | nil =>
    intro s _ _
    refine ⟨fun _ c hc => ?_, fun _ c hc => ?_, by simp [fallRun]⟩ <;>
      simp [fallRun] at hc
  | cons hd rest ih =>
    obtain ⟨t, a⟩ := hd
    intro s hv hs
    have hv' : validTrace (fallStep s t a).1 rest = true := validTrace_tail hv
    have hlt : ∀ p ∈ rest, t < p.1 := validTrace_head_lt rest s t a hv
    by_cases hb : accelBelowThreshold a = true
    · by_cases hsf : s.isFalling = true
      · -- already falling, below threshold
        have hst : s.fallStartTime ≤ t := hs hsf (t, a) (List.mem_cons_self _ _)
        by_cases hcf : 300000 ≤ t - s.fallStartTime
        · -- confirming call
          have hr : fallStep s t a =
              ({ isFalling := false, fallStartTime := s.fallStartTime }, true) := by
            simp [fallStep, hb, hsf, hcf]
          rw [hr] at hv'
          have ihh := ih { isFalling := false, fallStartTime := s.fallStartTime }
            hv' (by intro hcontra; simp at hcontra)
          have htail := ihh.2.1 rfl
          rw [fallRun_cons_emit hr]
          have hbound : ∀ c ∈ (fallRun (⟨false, s.fallStartTime⟩ : FallState) rest).2,
              t + 1300000 ≤ c := by
            intro c hc
            cases rest with
            | nil => simp [fallRun] at hc
            | cons hd2 tl2 =>
              obtain ⟨t2, a2⟩ := hd2
              have hgap : t + 1000000 ≤ t2 := validTrace_emit_gap hv (by rw [hr])
              have h1 := htail c hc
              simp only [firstTime] at h1
              omega
          refine ⟨fun _ c hc => ?_, fun hcontra => ?_, ?_⟩
          · rcases List.mem_cons.mp hc with rfl | hc'
            · omega
            · have := hbound c hc'
              omega
          · simp [hsf] at hcontra
          · rw [List.chain'_cons']
            exact ⟨fun y hy => hbound y (List.mem_of_mem_head? hy), ihh.2.2⟩
        · -- below threshold but not yet FALL_DURATION
          have hr : fallStep s t a = (s, false) := by
            simp [fallStep, hb, hsf, hcf]
          rw [hr] at hv'
          have ihh := ih s hv'
            (fun _ p hp => le_trans hst (le_of_lt (hlt p hp)))
          rw [fallRun_cons_skip hr]
          exact ⟨fun _ => ihh.1 hsf,
            fun hcontra => absurd hsf (by simp [hcontra]), ihh.2.2⟩
      · -- idle, below threshold: arm the detector
        have hsf' : s.isFalling = false := by simpa using hsf
        have hr : fallStep s t a =
            ({ isFalling := true, fallStartTime := t }, false) := by
          simp [fallStep, hb, hsf']
        rw [hr] at hv'
        have ihh := ih { isFalling := true, fallStartTime := t } hv'
          (fun _ p hp => le_of_lt (hlt p hp))
        have htail := ihh.1 rfl
        rw [fallRun_cons_skip hr]
        refine ⟨fun hcontra => absurd hcontra hsf, fun _ c hc => ?_, ihh.2.2⟩
        have h1 : t + 300000 ≤ c := htail c hc
        simp only [firstTime]
        omega
    · -- above threshold: episode (if any) is discarded
      have hr : fallStep s t a =
          ({ isFalling := false, fallStartTime := s.fallStartTime }, false) := by
        simp [fallStep, hb]
      rw [hr] at hv'
      have ihh := ih { isFalling := false, fallStartTime := s.fallStartTime }
        hv' (by intro hcontra; simp at hcontra)
      have htail := ihh.2.1 rfl
      rw [fallRun_cons_skip hr]
      refine ⟨fun hsf c hc => ?_, fun _ c hc => ?_, ihh.2.2⟩
      · have hst : s.fallStartTime ≤ t := hs hsf (t, a) (List.mem_cons_self _ _)
        cases rest with
        | nil => simp [fallRun] at hc
        | cons hd2 tl2 =>
          obtain ⟨t2, a2⟩ := hd2
          have ht2 : t < t2 := hlt (t2, a2) (List.mem_cons_self _ _)
          have h1 := htail c hc
          simp only [firstTime] at h1
          omega
      · cases rest with
        | nil => simp [fallRun] at hc
        | cons hd2 tl2 =>
          obtain ⟨t2, a2⟩ := hd2
          have ht2 : t < t2 := hlt (t2, a2) (List.mem_cons_self _ _)
          have h1 := htail c hc
          simp only [firstTime] at h1
          simp only [firstTime]
          omega

/-! ### Claim C3 (one emission, cooldown) -/

/-- The trace refuting C3's "exactly one emission per episode": a single
contiguous below-threshold episode (samples of constant magnitude ≈ 0.2 g)
lasting 1.6 s, sampled every 100 ms, with the 1 s blocking debounce after
the first confirmation respected. -/
def fallCexTrace : List (Nat × Accel) :=
  [(0, (0, 0, 3277)), (100000, (0, 0, 3277)), (200000, (0, 0, 3277)),
   (300000, (0, 0, 3277)), (1300000, (0, 0, 3277)), (1400000, (0, 0, 3277)),
   (1500000, (0, 0, 3277)), (1600000, (0, 0, 3277))]

/-- C3, counterexample.  On a timing-valid trace whose samples all stay
below `FALL_THRESHOLD` — one contiguous free-fall episode — the detector
emits twice (at 300000 µs and again at 1600000 µs): after the 1 s debounce
the still-below samples re-arm the detector and a second fall is confirmed
for the same episode, so "exactly one confirmed-fall emission per episode"
fails. -/
theorem fall_cooldown_cex :
    validTrace initFallState fallCexTrace = true ∧
    fallCexTrace.all (fun p => accelBelowThreshold p.2) = true ∧
    (fallRun initFallState fallCexTrace).2 = [300000, 1600000] := by
  refine ⟨?_, ?_, ?_⟩ <;> decide

/-- C3 (amended): a confirming call emits exactly once and force-returns
the detector to Idle, and no second fall can be confirmed within the 1 s
cooldown window: on any trace consistent with the loop's timing (including
the blocking `delay(1000)` after a confirmation), consecutive confirmation
times are at least 1.3 s apart — the 1 s debounce plus a fresh 300 ms
below-threshold dwell.  (An episode that outlasts the cooldown can confirm
again, which is why the original "exactly one per episode" fails.) -/
theorem fall_confirm_spacing :
    (∀ (s : FallState) (t : Nat) (a : Accel),
        (fallStep s t a).2 = true → (fallStep s t a).1.isFalling = false) ∧
    (∀ l : List (Nat × Accel), validTrace initFallState l = true →
      List.Chain' (fun c₁ c₂ => c₁ + 1300000 ≤ c₂) (fallRun initFallState l).2) := by
  constructor
  · intro s t a h
    by_cases hb : accelBelowThreshold a = true
    · by_cases hf : s.isFalling = false
      · simp [fallStep, hb, hf] at h
      · by_cases hc : 300000 ≤ t - s.fallStartTime
        · simp [fallStep, hb, hf, hc]
        · simp [fallStep, hb, hf, hc] at h
    · simp [fallStep, hb] at h
  · intro l hv
    exact (fallRun_bound_chain l initFallState hv
      (by intro h; simp [initFallState] at h)).2.2

/-- Witness for `fall_confirm_spacing` at concrete inputs. -/
theorem fall_confirm_spacing_witness :
    (fallStep { isFalling := true, fallStartTime := 0 } 300000 (0, 0, 3277)).1.isFalling
      = false ∧
    List.Chain' (fun c₁ c₂ => c₁ + 1300000 ≤ c₂)
      (fallRun initFallState [(0, (0, 0, 3277)), (300000, (0, 0, 3277))]).2 :=
  ⟨fall_confirm_spacing.1 { isFalling := true, fallStartTime := 0 } 300000 (0, 0, 3277)
      (by decide),
    fall_confirm_spacing.2 [(0, (0, 0, 3277)), (300000, (0, 0, 3277))] (by decide)⟩

/-! ### Claim C5 (duration boundary) -/

/-- While falling, below-threshold samples arriving before
`fallStartTime + FALL_DURATION_US` neither emit nor change the state. -/
theorem fallRun_while_falling (t0 : Nat) :
    ∀ (mids : List (Nat × Accel)) (l : List (Nat × Accel)),
      (∀ p ∈ mids, accelBelowThreshold p.2 = true ∧ p.1 - t0 < 300000) →
      fallRun { isFalling := true, fallStartTime := t0 } (mids ++ l) =
        fallRun { isFalling := true, fallStartTime := t0 } l := by
  intro mids
  induction mids with
  | nil => intro l _; rfl
  | cons hd tl ih =>
    intro l hm
    obtain ⟨t, a⟩ := hd
    have h1 := hm (t, a) (List.mem_cons_self _ _)
    have hg : ¬ (300000 ≤ t - t0) := by omega
    have hr : fallStep { isFalling := true, fallStartTime := t0 } t a =
        ({ isFalling := true, fallStartTime := t0 }, false) := by
      simp [fallStep, h1.1, hg]
    rw [List.cons_append, fallRun_cons_skip hr]
    exact ih l (fun p hp => hm p (List.mem_cons_of_mem _ hp))

/-- C5: a sequence whose magnitude stays below `FALL_THRESHOLD` from `t0`
through exactly `t0 + FALL_DURATION_US` (with a sample at that instant)
and then recovers confirms exactly one fall, at `t0 + 300000`; a sequence
whose below-threshold samples all end strictly before `t0 + 300000` and
then recovers confirms zero falls and returns the detector to Idle with no
emission. -/
theorem fall_duration_boundary :
    (∀ (t0 : Nat) (mids : List (Nat × Accel)) (tr : Nat) (a0 a1 b : Accel),
      accelBelowThreshold a0 = true →
      accelBelowThreshold a1 = true →
      accelBelowThreshold b = false →
      (∀ p ∈ mids, accelBelowThreshold p.2 = true ∧ t0 < p.1 ∧ p.1 < t0 + 300000) →
      (fallRun initFallState
          ((t0, a0) :: mids ++ [(t0 + 300000, a1), (tr, b)])).2 = [t0 + 300000]) ∧
    (∀ (t0 : Nat) (mids : List (Nat × Accel)) (tr : Nat) (a0 b : Accel),
      accelBelowThreshold a0 = true →
      accelBelowThreshold b = false →
      (∀ p ∈ mids, accelBelowThreshold p.2 = true ∧ t0 < p.1 ∧ p.1 < t0 + 300000) →
      (fallRun initFallState ((t0, a0) :: mids ++ [(tr, b)])).2 = [] ∧
      (fallRun initFallState ((t0, a0) :: mids ++ [(tr, b)])).1.isFalling = false) := by
  constructor
  · intro t0 mids tr a0 a1 b h0 h1 hb hm
    have hr0 : fallStep initFallState t0 a0 =
        ({ isFalling := true, fallStartTime := t0 }, false) := by
      simp [fallStep, initFallState, h0]
    rw [List.cons_append, fallRun_cons_skip hr0,
      fallRun_while_falling t0 mids _
        (fun p hp => ⟨(hm p hp).1, by have := (hm p hp).2.2; omega⟩)]
    have hg1 : 300000 ≤ t0 + 300000 - t0 := by omega
    have hr1 : fallStep { isFalling := true, fallStartTime := t0 } (t0 + 300000) a1 =
        ({ isFalling := false, fallStartTime := t0 }, true) := by
      simp [fallStep, h1, hg1]
    rw [fallRun_cons_emit hr1]
    have hr2 : fallStep { isFalling := false, fallStartTime := t0 } tr b =
        ({ isFalling := false, fallStartTime := t0 }, false) := by
      simp [fallStep, hb]
    rw [fallRun_cons_skip hr2]
    simp [fallRun]
  · intro t0 mids tr a0 b h0 hb hm
    have hr0 : fallStep initFallState t0 a0 =
        ({ isFalling := true, fallStartTime := t0 }, false) := by
      simp [fallStep, initFallState, h0]
    rw [List.cons_append, fallRun_cons_skip hr0,
      fallRun_while_falling t0 mids _
        (fun p hp => ⟨(hm p hp).1, by have := (hm p hp).2.2; omega⟩)]
    have hr2 : fallStep { isFalling := true, fallStartTime := t0 } tr b =
        ({ isFalling := false, fallStartTime := t0 }, false) := by
      simp [fallStep, hb]
    rw [fallRun_cons_skip hr2]
    simp [fallRun]

/-- Witness for `fall_duration_boundary` at concrete inputs: a 300 ms dip
(samples at 0 and 300000 µs) confirms once; a 100 ms dip confirms
nothing. -/
theorem fall_duration_boundary_witness :
    (fallRun initFallState
        ((0, ((0 : Int), (0 : Int), (3277 : Int))) :: [] ++
          [(0 + 300000, (0, 0, 3277)), (400000, (0, 0, 16384))])).2 = [0 + 300000] ∧
    (fallRun initFallState
        ((0, ((0 : Int), (0 : Int), (3277 : Int))) :: [] ++
          [(100000, (0, 0, 16384))])).2 = [] ∧
    (fallRun initFallState
        ((0, ((0 : Int), (0 : Int), (3277 : Int))) :: [] ++
          [(100000, (0, 0, 16384))])).1.isFalling = false := by
  refine ⟨?_, ?_, ?_⟩
  · exact fall_duration_boundary.1 0 [] 400000 (0, 0, 3277) (0, 0, 3277) (0, 0, 16384)
      (by decide) (by decide) (by decide) (by simp)
  · exact (fall_duration_boundary.2 0 [] 100000 (0, 0, 3277) (0, 0, 16384)
      (by decide) (by decide) (by simp)).1
  · exact (fall_duration_boundary.2 0 [] 100000 (0, 0, 3277) (0, 0, 16384)
      (by decide) (by decide) (by simp)).2

/-! ### Proximity / department classifier -/

/-- Identity of a scan result, as far as the department logic is concerned:
the two configured Argon beacon addresses (`arg1Address`, `arg2Address`) or
anything else. -/
inductive ScanAddr where
  | arg1
  | arg2
  | other
deriving DecidableEq

/-- The zone label the source assigns to each known beacon. -/
def deptZone : ScanAddr → Option String
  | ScanAddr.arg1 => some "Pediatric dept"
  | ScanAddr.arg2 => some "Cardiac dept"
  | ScanAddr.other => none

/-- The department globals of the source: `currentDepartment`,
`lastPublishedDept`, `lastDeptSeen`. -/
structure DeptState where
  currentDepartment : String
  lastPublishedDept : String
  lastDeptSeen : Nat
deriving DecidableEq

/-- The department part of source `scanResultCallback` at time `now`
(`millis()`).  On a match with a known beacon: set `currentDepartment`,
publish iff `currentDepartment != lastPublishedDept || millis() -
lastDeptSeen > 60000` (advancing `lastPublishedDept` on publication), and
unconditionally set `lastDeptSeen = millis()`.  The learning-mode and
tracked-device branches of the callback touch none of these globals, so a
non-beacon address leaves this state unchanged and publishes nothing.
Returns the new state and whether a department event was published. -/
def scanResultCallback (s : DeptState) (addr : ScanAddr) (now : Nat) :
    DeptState × Bool :=
  match addr with
  | ScanAddr.arg1 =>
    if "Pediatric dept" ≠ s.lastPublishedDept ∨ 60000 < now - s.lastDeptSeen then
      ({ currentDepartment := "Pediatric dept", lastPublishedDept := "Pediatric dept",
         lastDeptSeen := now }, true)
    else
      ({ currentDepartment := "Pediatric dept", lastPublishedDept := s.lastPublishedDept,
         lastDeptSeen := now }, false)
  | ScanAddr.arg2 =>
    if "Cardiac dept" ≠ s.lastPublishedDept ∨ 60000 < now - s.lastDeptSeen then
      ({ currentDepartment := "Cardiac dept", lastPublishedDept := "Cardiac dept",
         lastDeptSeen := now }, true)
    else
      ({ currentDepartment := "Cardiac dept", lastPublishedDept := s.lastPublishedDept,
         lastDeptSeen := now }, false)
  | ScanAddr.other => (s, false)

/-- Boot values of the department globals. -/
def initDeptState : DeptState :=
  { currentDepartment := "", lastPublishedDept := "", lastDeptSeen := 0 }

/-! ### Claim C4 (department de-duplication) -/

/-- C4, counterexample.  Beacon contacts with the same zone at t = 0 ms
(publishes), t = 30000 ms (suppressed) and t = 70000 ms: at the third
contact, more than `REPEAT_WINDOW` (60 s) has elapsed since the zone
contact recorded at the prior emission (t = 0), so the claim requires a
re-emission — but the code compares against `lastDeptSeen`, which was
refreshed by the *non-publishing* contact at 30000, and stays silent. -/
theorem dept_repeat_cex :
    (let s1 := scanResultCallback initDeptState ScanAddr.arg1 0
     let s2 := scanResultCallback s1.1 ScanAddr.arg1 30000
     let s3 := scanResultCallback s2.1 ScanAddr.arg1 70000
     s1.2 = true ∧ s2.2 = false ∧ s3.2 = false ∧ 60000 < 70000 - 0) := by
  decide

/-- C4 (amended): on a scan result matching a known beacon, a department
event is emitted iff the mapped zone differs from `lastPublishedDept` OR
more than 60 s has elapsed since the *previous matching beacon contact*
(`lastDeptSeen`, refreshed on every matching contact, publishing or not) —
so a long dwell in one zone with continuous beacon contact is never
re-emitted; `currentDepartment` is set to the zone and `lastDeptSeen` to
`now` on every match, and `lastPublishedDept` advances exactly on
emission. -/
theorem dept_emit_iff (s : DeptState) (addr : ScanAddr) (now : Nat) (z : String)
    (hz : deptZone addr = some z) :
    ((scanResultCallback s addr now).2 = true ↔
      (z ≠ s.lastPublishedDept ∨ 60000 < now - s.lastDeptSeen)) ∧
    (scanResultCallback s addr now).1.currentDepartment = z ∧
    (scanResultCallback s addr now).1.lastDeptSeen = now ∧
    ((scanResultCallback s addr now).2 = true →
      (scanResultCallback s addr now).1.lastPublishedDept = z) ∧
    ((scanResultCallback s addr now).2 = false →
      (scanResultCallback s addr now).1.lastPublishedDept = s.lastPublishedDept) := by
  cases addr with
  | other => simp [deptZone] at hz
  | arg1 =>
    have hz' : z = "Pediatric dept" := by simpa [deptZone] using hz.symm
    subst hz'
    by_cases hc : ("Pediatric dept" ≠ s.lastPublishedDept ∨ 60000 < now - s.lastDeptSeen)
    · simp [scanResultCallback, hc]
    · simp [scanResultCallback, hc]
  | arg2 =>
    have hz' : z = "Cardiac dept" := by simpa [deptZone] using hz.symm
    subst hz'
    by_cases hc : ("Cardiac dept" ≠ s.lastPublishedDept ∨ 60000 < now - s.lastDeptSeen)
    · simp [scanResultCallback, hc]
    · simp [scanResultCallback, hc]

/-- Witness for `dept_emit_iff` at a concrete first contact. -/
theorem dept_emit_iff_witness :
    ((scanResultCallback initDeptState ScanAddr.arg1 0).2 = true ↔
      ("Pediatric dept" ≠ initDeptState.lastPublishedDept ∨
        60000 < 0 - initDeptState.lastDeptSeen)) ∧
    (scanResultCallback initDeptState ScanAddr.arg1 0).1.currentDepartment =
      "Pediatric dept" ∧
    (scanResultCallback initDeptState ScanAddr.arg1 0).1.lastDeptSeen = 0 ∧
    ((scanResultCallback initDeptState ScanAddr.arg1 0).2 = true →
      (scanResultCallback initDeptState ScanAddr.arg1 0).1.lastPublishedDept =
        "Pediatric dept") ∧
    ((scanResultCallback initDeptState ScanAddr.arg1 0).2 = false →
      (scanResultCallback initDeptState ScanAddr.arg1 0).1.lastPublishedDept =
        initDeptState.lastPublishedDept) :=
  dept_emit_iff initDeptState ScanAddr.arg1 0 "Pediatric dept" rfl

/-! ### Control surface: Arduino string normalization -/

/-- Whitespace test used by Arduino `String::trim()` (C `isspace`): space,
tab, newline, vertical tab, form feed, carriage return. -/
def isSpaceChar (c : Char) : Bool :=
  c.toNat = 32 || c.toNat = 9 || c.toNat = 10 || c.toNat = 11 ||
    c.toNat = 12 || c.toNat = 13

/-- Per-character ASCII lowering performed by Arduino
`String::toLowerCase()` (C `tolower` in the C locale). -/
def lowerChar (c : Char) : Char :=
  if 65 ≤ c.toNat ∧ c.toNat ≤ 90 then Char.ofNat (c.toNat + 32) else c

/-- Arduino `String::trim()`: remove leading and trailing whitespace. -/
def trimList (l : List Char) : List Char :=
  ((l.dropWhile isSpaceChar).reverse.dropWhile isSpaceChar).reverse

/-- The `cmd.trim(); cmd.toLowerCase();` normalization at the top of
source `setStatusFunction`. -/
def normalizeCmd (s : String) : String :=
  String.mk ((trimList s.data).map lowerChar)

theorem lower_shift (n : Nat) (h1 : 65 ≤ n) (h2 : n ≤ 90) :
    (Char.ofNat (n + 32)).toNat = n + 32 := by
  interval_cases n <;> decide

theorem isSpaceChar_lowerChar (c : Char) :
    isSpaceChar (lowerChar c) = isSpaceChar c := by
  by_cases h : 65 ≤ c.toNat ∧ c.toNat ≤ 90
  · obtain ⟨ha, hb⟩ := h
    have h1 : lowerChar c = Char.ofNat (c.toNat + 32) := by
      unfold lowerChar; rw [if_pos ⟨ha, hb⟩]
    have hs : (Char.ofNat (c.toNat + 32)).toNat = c.toNat + 32 :=
      lower_shift c.toNat ha hb
    have hL : isSpaceChar (Char.ofNat (c.toNat + 32)) = false := by
      unfold isSpaceChar
      rw [hs]
      simp only [Bool.or_eq_false_iff, decide_eq_false_iff_not]
      omega
    have hR : isSpaceChar c = false := by
      unfold isSpaceChar
      simp only [Bool.or_eq_false_iff, decide_eq_false_iff_not]
      omega
    rw [h1, hL, hR]
  · have h1 : lowerChar c = c := by unfold lowerChar; rw [if_neg h]
    rw [h1]

theorem lowerChar_idem (c : Char) : lowerChar (lowerChar c) = lowerChar c := by
  by_cases h : 65 ≤ c.toNat ∧ c.toNat ≤ 90
  · obtain ⟨ha, hb⟩ := h
    have h1 : lowerChar c = Char.ofNat (c.toNat + 32) := by
      unfold lowerChar; rw [if_pos ⟨ha, hb⟩]
    have hs : (Char.ofNat (c.toNat + 32)).toNat = c.toNat + 32 :=
      lower_shift c.toNat ha hb
    rw [h1]
    unfold lowerChar
    rw [if_neg (by rw [hs]; omega)]
  · have h1 : lowerChar c = c := by unfold lowerChar; rw [if_neg h]
    rw [h1, h1]

theorem dropWhile_map_lower (l : List Char) :
    List.dropWhile isSpaceChar (l.map lowerChar) =
      (List.dropWhile isSpaceChar l).map lowerChar := by
  induction l with
  | nil => rfl
  | cons a l ih =>
    simp only [List.map_cons, List.dropWhile_cons, isSpaceChar_lowerChar]
    cases ha : isSpaceChar a <;> simp [ha, ih]

theorem head?_dropWhile_not (p : Char → Bool) :
    ∀ l : List Char, ∀ c ∈ (List.dropWhile p l).head?, p c = false := by
  intro l
  induction l with
  | nil => intro c hc; simp [List.dropWhile] at hc
  | cons a l ih =>
    intro c hc
    rw [List.dropWhile_cons] at hc
    by_cases ha : p a = true
    · rw [if_pos ha] at hc
      exact ih c hc
    · rw [if_neg ha] at hc
      simp only [List.head?_cons, Option.mem_def, Option.some.injEq] at hc
      subst hc
      simpa using ha

theorem getLast?_dropWhile_ne_nil (p : Char → Bool) :
    ∀ l : List Char, List.dropWhile p l ≠ [] →
      (List.dropWhile p l).getLast? = l.getLast? := by
  intro l
  induction l with
  | nil => intro h; simp [List.dropWhile] at h
  | cons a l ih =>
    intro h
    rw [List.dropWhile_cons] at h ⊢
    by_cases ha : p a = true
    · rw [if_pos ha] at h ⊢
      have hl : l ≠ [] := by
        intro he; subst he; simp [List.dropWhile] at h
      rw [ih h]
      cases l with
      | nil => exact absurd rfl hl
      | cons b l2 => rw [List.getLast?_cons_cons]
    · rw [if_neg ha]

theorem trim_head_not_space (l : List Char) :
    ∀ c ∈ (trimList l).head?, isSpaceChar c = false := by
  intro c hc
  unfold trimList at hc
  rw [List.head?_reverse] at hc
  by_cases hw : List.dropWhile isSpaceChar ((List.dropWhile isSpaceChar l).reverse) = []
  · rw [hw] at hc; simp at hc
  · rw [getLast?_dropWhile_ne_nil isSpaceChar _ hw, List.getLast?_reverse] at hc
    exact head?_dropWhile_not isSpaceChar l c hc

theorem trim_getLast_not_space (l : List Char) :
    ∀ c ∈ (trimList l).getLast?, isSpaceChar c = false := by
  intro c hc
  unfold trimList at hc
  rw [List.getLast?_reverse] at hc
  exact head?_dropWhile_not isSpaceChar _ c hc

theorem dropWhile_eq_self_of_head (p : Char → Bool) (y : List Char)
    (h : ∀ c ∈ y.head?, p c = false) : List.dropWhile p y = y := by
  cases y with
  | nil => rfl
  | cons a l =>
    have ha : p a = false := h a (by simp)
    rw [List.dropWhile_cons, if_neg (by simp [ha])]

theorem trimList_eq_self (y : List Char)
    (h1 : ∀ c ∈ y.head?, isSpaceChar c = false)
    (h2 : ∀ c ∈ y.getLast?, isSpaceChar c = false) : trimList y = y := by
  unfold trimList
  rw [dropWhile_eq_self_of_head isSpaceChar y h1]
  rw [dropWhile_eq_self_of_head isSpaceChar y.reverse
    (by intro c hc; rw [List.head?_reverse] at hc; exact h2 c hc)]
  exact List.reverse_reverse y

theorem map_lower_trim (l : List Char) :
    trimList (l.map lowerChar) = (trimList l).map lowerChar := by
  unfold trimList
  rw [dropWhile_map_lower, ← List.map_reverse, dropWhile_map_lower,
    ← List.map_reverse]

theorem normalizeCmd_idem (s : String) :
    normalizeCmd (normalizeCmd s) = normalizeCmd s := by
  unfold normalizeCmd
  congr 1
  show (trimList ((trimList s.data).map lowerChar)).map lowerChar =
    (trimList s.data).map lowerChar
  rw [map_lower_trim,
    trimList_eq_self _ (trim_head_not_space _) (trim_getLast_not_space _),
    List.map_map]
  exact List.map_congr_left (fun a _ => lowerChar_idem a)

/-! ### Control surface: command dispatch -/

/-- Kinds of cloud events the control surface can force. -/
inductive EventKind where
  | falling
  | department (dept : String) (rssi : Int)
  | periodicStatus
deriving DecidableEq

/-- The globals `setStatusFunction` can touch: `statuss` (the location-push
flag), the department pair, and the shared `lastPublish` timestamp. -/
structure SysState where
  statuss : Bool
  currentDepartment : String
  lastPublishedDept : String
  lastPublish : Nat
deriving DecidableEq

/-- Boot values of those globals. -/
def initSysState : SysState :=
  { statuss := false, currentDepartment := "", lastPublishedDept := "",
    lastPublish := 0 }

/-- Source `setStatusFunction(const char* command)` at time `now`
(`millis()`): normalizes with `trim()` and `toLowerCase()`, then matches
the command groups.  `fall` calls `publishFallAlert`, `arg1`/`arg2` set
`currentDepartment`, call `publishDepartment(dept, 0)` and advance
`lastPublishedDept`, and `info` calls `publishPeriodicStatus`; each of
those publishes through the shared rate gate, which sets `lastPublish` to
the dispatch time (`dispatchTime`).  Unrecognized commands return -1 and
touch nothing.  Returns the code, the new state and the published
events. -/
def setStatusFunction (command : String) (now : Nat) (st : SysState) :
    Int × SysState × List EventKind :=
  let cmd := normalizeCmd command
  if cmd = "true" ∨ cmd = "1" ∨ cmd = "on" then
    (1, { st with statuss := true }, [])
  else if cmd = "false" ∨ cmd = "0" ∨ cmd = "off" then
    (0, { st with statuss := false }, [])
  else if cmd = "fall" then
    (2, { st with lastPublish := dispatchTime st.lastPublish now },
      [EventKind.falling])
  else if cmd = "arg1" then
    (3, { st with currentDepartment := "Pediatric dept",
                  lastPublishedDept := "Pediatric dept",
                  lastPublish := dispatchTime st.lastPublish now },
      [EventKind.department "Pediatric dept" 0])
  else if cmd = "arg2" then
    (4, { st with currentDepartment := "Cardiac dept",
                  lastPublishedDept := "Cardiac dept",
                  lastPublish := dispatchTime st.lastPublish now },
      [EventKind.department "Cardiac dept" 0])
  else if cmd = "info" then
    (5, { st with lastPublish := dispatchTime st.lastPublish now },
      [EventKind.periodicStatus])
  else
    (-1, st, [])

/-! ### Claim C9 (control-surface codes) -/

/-- C9: the command function returns 1 for `true`/`1`/`on` (setting the
location-push flag), 0 for `false`/`0`/`off` (clearing it), 2 for `fall`
(one forced fall emission), 3/4 for `arg1`/`arg2` (one forced department
emission with rssi = 0), 5 for `info` (one forced periodic-status
emission), and -1 for every other command, in which case no state is
mutated and nothing is published. -/
theorem setStatus_codes (now : Nat) (st : SysState) :
    (∀ c : String,
        normalizeCmd c ∉ (["true", "1", "on", "false", "0", "off",
            "fall", "arg1", "arg2", "info"] : List String) →
        setStatusFunction c now st = (-1, st, [])) ∧
    setStatusFunction "true" now st = (1, { st with statuss := true }, []) ∧
    setStatusFunction "1" now st = (1, { st with statuss := true }, []) ∧
    setStatusFunction "on" now st = (1, { st with statuss := true }, []) ∧
    setStatusFunction "false" now st = (0, { st with statuss := false }, []) ∧
    setStatusFunction "0" now st = (0, { st with statuss := false }, []) ∧
    setStatusFunction "off" now st = (0, { st with statuss := false }, []) ∧
    setStatusFunction "fall" now st =
      (2, { st with lastPublish := dispatchTime st.lastPublish now },
        [EventKind.falling]) ∧
    setStatusFunction "arg1" now st =
      (3, { st with currentDepartment := "Pediatric dept",
                    lastPublishedDept := "Pediatric dept",
                    lastPublish := dispatchTime st.lastPublish now },
        [EventKind.department "Pediatric dept" 0]) ∧
    setStatusFunction "arg2" now st =
      (4, { st with currentDepartment := "Cardiac dept",
                    lastPublishedDept := "Cardiac dept",
                    lastPublish := dispatchTime st.lastPublish now },
        [EventKind.department "Cardiac dept" 0]) ∧
    setStatusFunction "info" now st =
      (5, { st with lastPublish := dispatchTime st.lastPublish now },
        [EventKind.periodicStatus]) := by
  refine ⟨?_, rfl, rfl, rfl, rfl, rfl, rfl, rfl, rfl, rfl, rfl⟩
  intro c hc
  simp only [List.mem_cons, List.not_mem_nil, or_false, not_or] at hc
  obtain ⟨h1, h2, h3, h4, h5, h6, h7, h8, h9, h10⟩ := hc
  simp only [setStatusFunction]
  rw [if_neg (by simp [h1, h2, h3]), if_neg (by simp [h4, h5, h6]),
    if_neg h7, if_neg h8, if_neg h9, if_neg h10]

/-- Witness for `setStatus_codes` at a concrete unrecognized command. -/
theorem setStatus_codes_witness :
    setStatusFunction "zzz" 0 initSysState = (-1, initSysState, []) :=
  (setStatus_codes 0 initSysState).1 "zzz" (by decide)

/-! ### Claim C10 (normalization) -/

/-- C10: command recognition depends only on the trimmed, lowercased form
of the input — running the function on the normalized command gives the
same result — and, e.g., `" ON "`, `"On"` and `"on"` all enable the
location push and return 1. -/
theorem setStatus_normalized :
    (∀ (c : String) (now : Nat) (st : SysState),
        setStatusFunction c now st = setStatusFunction (normalizeCmd c) now st) ∧
    (∀ (now : Nat) (st : SysState),
        setStatusFunction " ON " now st = (1, { st with statuss := true }, []) ∧
        setStatusFunction "On" now st = (1, { st with statuss := true }, []) ∧
        setStatusFunction "on" now st = (1, { st with statuss := true }, [])) := by
  constructor
  · intro c now st
    simp only [setStatusFunction, normalizeCmd_idem]
  · intro now st
    exact ⟨rfl, rfl, rfl⟩
